import Mathlib

/-!
Shallow embedding of the `@nestjs/typeorm` integration layer: the connection
bootstrap with its retry protocol (`TypeOrmCoreModule.createDataSourceFactory`
in `src/lib/typeorm-core.module.ts`), the entity-metadata registry used by
feature registration (`TypeOrmModule.forFeature` in `src/lib/typeorm.module.ts`),
the repository-provider construction (`src/lib/typeorm.providers.ts`), and the
shutdown hook (`TypeOrmCoreModule.onApplicationShutdown`).

Errors are modelled by their message strings, entity descriptors by a small
inductive carrying an identity, and the asynchronous retry loop by an explicit
recursion that records the log lines emitted and the number of attempts made.
-/

namespace NestTypeOrm

/-- An entity descriptor (`EntityClassOrSchema`): either a plain entity
class/schema, or a custom-repository class (a class extending the ORM's
`Repository`) targeting an entity class. Identity is the `id` field. -/
inductive EntityClassOrSchema where
  | plain (id : Nat)
  | customRepo (id : Nat) (entity : Nat)
deriving DecidableEq, Repr

/-- The configured `entities` field of the options object: absent (`none` at the
use sites), an array of descriptors, or a keyed-map form (a plain object whose
values are descriptors; `Object.values` enumerates them in key order). -/
inductive EntitiesConfig where
  | arr (es : List EntityClassOrSchema)
  | keyed (m : List (String × EntityClassOrSchema))
deriving DecidableEq, Repr

/-- Normalization by `Object.values` of the entities config when it is an object
(line 196 of `typeorm-core.module.ts`): an array yields its elements in order,
a keyed map yields the values in key order. -/
def normalizeEntities : EntitiesConfig → List EntityClassOrSchema
  | .arr es => es
  | .keyed m => m.map (·.2)

/-- A live data-source (connection) handle; `id` is the instance identity and
`isInitialized` mirrors the driver flag checked at line 182. -/
structure DataSource where
  id : Nat
  isInitialized : Bool
deriving DecidableEq, Repr

/-- The process-wide connection manager (`getConnectionManager()`), modelled as
an association of connection names to data sources. -/
structure ConnectionManager where
  entries : List (String × DataSource)
deriving DecidableEq, Repr

/-- Combined `manager.has(name)` / `manager.get(name)`: the data source stored
under `name`, if any. -/
def mgrFind (mgr : ConnectionManager) (name : String) : Option DataSource :=
  (mgr.entries.find? (fun p => p.1 = name)).map (·.2)

/-- The `TypeOrmModuleOptions` record (interfaces/typeorm-options.interface.ts)
restricted to the fields the bootstrap logic reads. `type` is the driver type
of the underlying `DataSourceOptions`; `toRetry` is the retry predicate on the
error (modelled on the error message). -/
structure TypeOrmModuleOptions where
  retryAttempts : Option Int := none
  retryDelay : Option Nat := none
  toRetry : Option (String → Bool) := none
  autoLoadEntities : Bool := false
  keepDataSourceAlive : Bool := false
  verboseRetryLog : Bool := false
  name : Option String := none
  type : Option String := none
  entities : Option EntitiesConfig := none

/-- The constant `DEFAULT_DATA_SOURCE_NAME` from `typeorm.constants.ts`. -/
def DEFAULT_DATA_SOURCE_NAME : String := "default"

/-- Modelled from the spec: `getDataSourceName` lives in
`src/lib/common/typeorm.utils.ts`, which is absent from the source tree.
Per §4.1 step 1 of the spec, the logical name is the explicit `name` field,
else the default name (the serialized-configuration fallback of §3 applies to
registry keys given as full configuration objects; see `resolveKey`). -/
def getDataSourceName (opts : TypeOrmModuleOptions) : String :=
  opts.name.getD DEFAULT_DATA_SOURCE_NAME

/-- A connection identifier as accepted by feature registration:
a plain string name, or a configuration-like object carrying an optional
`name` and a stable serialization of itself. -/
inductive DataSourceIdent where
  | str (s : String)
  | options (name : Option String) (serialized : String)
deriving DecidableEq, Repr

/-- Modelled from the spec: the registry's key resolution (§4.2, in the absent
`src/lib/entities-metadata.storage.ts`): a string key is used directly; a
configuration-like object contributes its `name` field, or failing that its
stable serialization. -/
def resolveKey : DataSourceIdent → String
  | .str s => s
  | .options (some n) _ => n
  | .options none ser => ser

/-- The registry's backing store: logical connection name to the ordered
collection of entity descriptors accumulated under it. -/
def Storage := String → List EntityClassOrSchema

/-- The registry before any registration. -/
def emptyStorage : Storage := fun _ => []

/-- Append `es` to `cur` in order, skipping any element already present
(duplicates removed by identity, first occurrence kept). -/
def dedupAppend (cur es : List EntityClassOrSchema) : List EntityClassOrSchema :=
  es.foldl (fun acc e => if e ∈ acc then acc else acc ++ [e]) cur

namespace EntitiesMetadataStorage

/-- Modelled from the spec: `EntitiesMetadataStorage.addEntitiesByDataSource`
(`src/lib/entities-metadata.storage.ts` is absent from the source tree).
Per §4.2, registration appends the given entities to the ordered collection
stored under the resolved key, accumulating and never overwriting, with
duplicates removed by identity (§3). -/
def addEntitiesByDataSource (s : Storage) (ident : DataSourceIdent)
    (es : List EntityClassOrSchema) : Storage :=
  fun k => if k = resolveKey ident then dedupAppend (s k) es else s k

/-- Modelled from the spec: `EntitiesMetadataStorage.getEntitiesByDataSource`
(`src/lib/entities-metadata.storage.ts` is absent from the source tree).
Per §4.2, lookup returns the stored ordered collection, and the empty
collection for a key never registered; it is total and never raises. -/
def getEntitiesByDataSource (s : Storage) (k : String) : List EntityClassOrSchema :=
  s k

end EntitiesMetadataStorage

/-! ### Retry protocol -/

/-- One log line emitted by a retry: the connection label and the message
(the full error message when verbose, a generic notice otherwise). -/
structure LogEntry where
  source : String
  message : String
deriving DecidableEq, Repr

/-- The log line written before a retry (§4.1 side effects: verbose shows the
full error message, non-verbose a generic notice naming the connection). -/
def mkRetryLog (label : String) (verbose : Bool) (err : String) : LogEntry :=
  ⟨label, if verbose then err else "Unable to connect to the database. Retrying..."⟩

instance : DecidableEq (Except String DataSource) := fun a b =>
  match a, b with
  | .ok x, .ok y => decidable_of_iff (x = y) (by simp)
  | .error x, .error y => decidable_of_iff (x = y) (by simp)
  | .ok _, .error _ => isFalse (by simp)
  | .error _, .ok _ => isFalse (by simp)

/-- The outcome of running an operation under the retry protocol: the final
result, the retry warnings logged, and how many times the operation ran. -/
structure RetryResult where
  outcome : Except String DataSource
  logs : List LogEntry
  attemptsMade : Nat
deriving DecidableEq, Repr

/-- The retry loop (§4.2 Retry Protocol): `rem` is the number of retries still
allowed, `i` the index of the attempt about to run, `logs` the warnings so
far. On failure, if the predicate accepts the error and a retry remains, log a
warning and rerun from scratch; otherwise propagate the error unchanged. -/
def retryRun (op : Nat → Except String DataSource) (pred : String → Bool)
    (label : String) (verbose : Bool) : Nat → Nat → List LogEntry → RetryResult
  | rem, i, logs =>
    match op i with
    | .ok ds => ⟨.ok ds, logs, i + 1⟩
    | .error e =>
      if pred e then
        match rem with
        | 0 => ⟨.error e, logs, i + 1⟩
        | rem' + 1 =>
          retryRun op pred label verbose rem' (i + 1) (logs ++ [mkRetryLog label verbose e])
      else ⟨.error e, logs, i + 1⟩

/-- The effective retry predicate: the configured `toRetry`, defaulting to
always-retry (§4.2: default `true`). -/
def effPred (toRetry : Option (String → Bool)) : String → Bool :=
  fun e => (toRetry.map (· e)).getD true

/-- Modelled from the spec: `handleRetry` lives in
`src/lib/common/typeorm.utils.ts`, which is absent from the source tree.
Per §4.2 Retry Protocol: `attempts` defaults to 10 and bounds the total number
of runs (`0` or negative disables retrying, so the first failure is fatal);
the delay (default 3000 ms, fixed interval) does not affect the outcome; the
predicate defaults to always-retry. -/
def handleRetry (retryAttempts : Option Int) (retryDelay : Option Nat)
    (label : String) (verbose : Bool) (toRetry : Option (String → Bool))
    (op : Nat → Except String DataSource) : RetryResult :=
  let _ := retryDelay.getD 3000
  retryRun op (effPred toRetry) label verbose ((retryAttempts.getD 10) - 1).toNat 0 []

/-! ### Connection bootstrap (`createDataSourceFactory`, lines 166-219) -/

/-- The decision taken by one subscription of the deferred observable
(lines 174-208): reuse an existing initialized data source, call the factory
with no arguments (no driver type configured), or call it with the resolved
options carrying the given `entities` field. -/
inductive BootstrapAction where
  | reuse (ds : DataSource)
  | createNoOptions
  | create (entities : Option EntitiesConfig)
deriving DecidableEq, Repr

/-- The keep-alive reuse check (lines 175-186): when `keepDataSourceAlive` is
set and the connection manager holds an already-initialized data source under
the resolved logical name, that data source. -/
def reuseAvailable (opts : TypeOrmModuleOptions) (mgr : ConnectionManager) :
    Option DataSource :=
  if opts.keepDataSourceAlive then
    match mgrFind mgr (getDataSourceName opts) with
    | some ds => if ds.isInitialized then some ds else none
    | none => none
  else none

/-- The merged entity list of the auto-load path (lines 196-204): the
configured entities, normalized by `Object.values` when given as an object,
concatenated with the registry's accumulated entities for the logical name;
the registry's list alone when no entities are configured. -/
def autoLoadedEntities (opts : TypeOrmModuleOptions) (storage : Storage) :
    List EntityClassOrSchema :=
  match opts.entities with
  | some cfg =>
    normalizeEntities cfg ++
      EntitiesMetadataStorage.getEntitiesByDataSource storage (getDataSourceName opts)
  | none => EntitiesMetadataStorage.getEntitiesByDataSource storage (getDataSourceName opts)

/-- The body of the `defer` at lines 173-208: attempt the keep-alive reuse,
otherwise pick the factory invocation: zero-argument when no driver type is
configured, the options unchanged when auto-load is off, and the options with
the merged entity list when auto-load is on. -/
def deferBody (opts : TypeOrmModuleOptions) (mgr : ConnectionManager)
    (storage : Storage) : BootstrapAction :=
  match reuseAvailable opts mgr with
  | some ds => .reuse ds
  | none =>
    if opts.type = none then .createNoOptions
    else if !opts.autoLoadEntities then .create opts.entities
    else .create (some (.arr (autoLoadedEntities opts storage)))

/-- The observable result of `createDataSourceFactory`: the outcome, the retry
warnings logged, and the argument of each invocation of the connection factory
(`none` for the zero-argument call). -/
structure BootstrapResult where
  outcome : Except String DataSource
  logs : List LogEntry
  factoryCalls : List (Option (Option EntitiesConfig))
deriving DecidableEq, Repr

/-- The method `createDataSourceFactory` (lines 166-219): the deferred attempt is wrapped
in `handleRetry`. A successful reuse emits the existing data source without
invoking the factory; the create branches invoke the factory once per retry
attempt, with outcomes supplied by `factory` (indexed by attempt). -/
def createDataSourceFactory (opts : TypeOrmModuleOptions) (mgr : ConnectionManager)
    (storage : Storage) (factory : Nat → Except String DataSource) : BootstrapResult :=
  let dataSourceToken := getDataSourceName opts
  match deferBody opts mgr storage with
  | .reuse ds => ⟨.ok ds, [], []⟩
  | .createNoOptions =>
    let r := handleRetry opts.retryAttempts opts.retryDelay dataSourceToken
      opts.verboseRetryLog opts.toRetry factory
    ⟨r.outcome, r.logs, List.replicate r.attemptsMade none⟩
  | .create payload =>
    let r := handleRetry opts.retryAttempts opts.retryDelay dataSourceToken
      opts.verboseRetryLog opts.toRetry factory
    ⟨r.outcome, r.logs, List.replicate r.attemptsMade (some payload)⟩

/-! ### Feature registration (`forFeature`, typeorm.module.ts lines 23-41) -/

/-- Modelled from the spec: `getCustomRepositoryEntity`
(`src/lib/helpers/get-custom-repository-entity.ts` is absent from the source
tree). For each descriptor that is a custom-repository class, in input order,
the entity class that the repository class targets. -/
def getCustomRepositoryEntity (entities : List EntityClassOrSchema) :
    List EntityClassOrSchema :=
  entities.filterMap fun e =>
    match e with
    | .customRepo _ ent => some (.plain ent)
    | .plain _ => none

/-- The method `TypeOrmModule.forFeature` (lines 23-41), restricted to its registry side
effect: register the caller's descriptors followed by the entity classes
derived from custom-repository classes among them. -/
def forFeature (entities : List EntityClassOrSchema) (ident : DataSourceIdent)
    (s : Storage) : Storage :=
  EntitiesMetadataStorage.addEntitiesByDataSource s ident
    (entities ++ getCustomRepositoryEntity entities)

/-! ### Repository providers (`createTypeOrmProviders`, typeorm.providers.ts) -/

/-- The repository handle produced by a provider's factory: the relational
lookup (`dataSource.getRepository`) or the document-style lookup
(`dataSource.getMongoRepository`) of the entity. -/
inductive RepoLookup where
  | relational (e : EntityClassOrSchema)
  | mongo (e : EntityClassOrSchema)
deriving DecidableEq, Repr

/-- The check `entity instanceof Function && entity.prototype instanceof Repository`
(lines 18-21): whether the descriptor is a class extending `Repository`. -/
def isRepositorySubclass : EntityClassOrSchema → Bool
  | .customRepo _ _ => true
  | .plain _ => false

/-- The provider's `useFactory` body (lines 17-28): a `Repository` subclass is
resolved through `getRepository`; otherwise the lookup depends on the data
source's driver type: `getMongoRepository` for `mongodb`, `getRepository`
otherwise. -/
def repositoryFor (entity : EntityClassOrSchema) (driverType : String) : RepoLookup :=
  if isRepositorySubclass entity then .relational entity
  else if driverType = "mongodb" then .mongo entity else .relational entity

/-- The function `createTypeOrmProviders` (lines 11-39): one provider per entity descriptor
(`(entities || []).map`), each resolving through `repositoryFor`. -/
def createTypeOrmProviders (entities : Option (List EntityClassOrSchema)) :
    List (EntityClassOrSchema × (String → RepoLookup)) :=
  (entities.getD []).map fun entity => (entity, repositoryFor entity)

/-! ### Shutdown (`onApplicationShutdown`, typeorm-core.module.ts 104-116) -/

/-- What the shutdown hook did: how many times `dataSource.close()` was
invoked and which error messages were logged. The hook itself always
completes: its result carries no error. -/
structure ShutdownResult where
  closeCalls : Nat
  loggedErrors : List String
deriving DecidableEq, Repr

/-- The hook `onApplicationShutdown` (lines 104-116): return early when
`keepDataSourceAlive`; otherwise close the data source when one is resolved
(`dataSource && await dataSource.close()`), catching any close error and
logging its message only. `closeOutcome` is what `dataSource.close()` does. -/
def onApplicationShutdown (keepDataSourceAlive : Bool) (ds : Option DataSource)
    (closeOutcome : Except String Unit) : ShutdownResult :=
  if keepDataSourceAlive then ⟨0, []⟩
  else
    match ds with
    | none => ⟨0, []⟩
    | some _ =>
      match closeOutcome with
      | .ok _ => ⟨1, []⟩
      | .error e => ⟨1, [e]⟩

/-! ### Lemmas on the retry loop -/

/-- One unfolding step of the retry loop. -/
theorem retryRun_step (op : Nat → Except String DataSource) (pred : String → Bool)
    (label : String) (verbose : Bool) (rem i : Nat) (logs : List LogEntry) :
    retryRun op pred label verbose rem i logs =
      match op i with
      | .ok ds => ⟨.ok ds, logs, i + 1⟩
      | .error e =>
        if pred e then
          match rem with
          | 0 => ⟨.error e, logs, i + 1⟩
          | rem' + 1 =>
            retryRun op pred label verbose rem' (i + 1) (logs ++ [mkRetryLog label verbose e])
        else ⟨.error e, logs, i + 1⟩ := by
  rw [retryRun.eq_def]

/-- Every run of the retry loop executes the pending attempt, so at least
`i + 1` attempts are made in total. -/
theorem retryRun_attempts_ge (op : Nat → Except String DataSource)
    (pred : String → Bool) (label : String) (verbose : Bool) :
    ∀ (rem i : Nat) (logs : List LogEntry),
      i + 1 ≤ (retryRun op pred label verbose rem i logs).attemptsMade := by
  intro rem
  induction rem with
  | zero =>
    intro i logs
    rw [retryRun.eq_def]
    rcases hop : op i with e | ds
    · simp [hop]
    · simp [hop]
  | succ rem' ih =>
    intro i logs
    rw [retryRun.eq_def]
    rcases hop : op i with e | ds
    · simp only [hop]
      by_cases hp : pred e = true
      · simp only [hp, if_true]
        exact le_trans (by omega) (ih (i + 1) _)
      · simp [hp]
    · simp [hop]

/-- An operation that fails on attempts `i, …, i + m - 1` and succeeds on
attempt `i + m` runs to success under the always-retry predicate whenever at
least `m` retries remain, logging one warning per failed attempt. -/
theorem retryRun_failThenOk (errs : Nat → String) (ds : DataSource)
    (label : String) (verbose : Bool) :
    ∀ (m rem i : Nat) (logs : List LogEntry), m ≤ rem →
      retryRun (fun j => if j < i + m then .error (errs j) else .ok ds)
          (fun _ => true) label verbose rem i logs =
        ⟨.ok ds,
          logs ++ (List.range m).map (fun j => mkRetryLog label verbose (errs (i + j))),
          i + m + 1⟩ := by
  intro m
  induction m with
  | zero =>
    intro rem i logs _
    rw [retryRun.eq_def]
    simp
  | succ m' ih =>
    intro rem i logs hle
    obtain ⟨rem', rfl⟩ : ∃ rem'', rem = rem'' + 1 := ⟨rem - 1, by omega⟩
    rw [retryRun.eq_def]
    simp only [show i < i + (m' + 1) by omega, if_pos, if_true]
    have harg : i + (m' + 1) = (i + 1) + m' := by omega
    rw [harg]
    rw [ih rem' (i + 1) (logs ++ [mkRetryLog label verbose (errs i)]) (by omega)]
    have hmaps : (List.range (m' + 1)).map
          (fun j => mkRetryLog label verbose (errs (i + j))) =
        mkRetryLog label verbose (errs i) ::
          (List.range m').map (fun j => mkRetryLog label verbose (errs (i + 1 + j))) := by
      rw [List.range_succ_eq_map, List.map_cons, List.map_map]
      refine congrArg₂ _ (by simp) ?_
      refine List.map_congr_left ?_
      intro j _
      simp only [Function.comp_apply, Nat.succ_eq_add_one]
      rw [show i + (j + 1) = i + 1 + j by omega]
    rw [hmaps]
    simp [List.append_assoc]

/-- An operation that fails on every attempt exhausts the remaining retries
under the always-retry predicate, propagating the last error: with `rem`
retries left before attempt `i`, attempts `i, …, i + rem` all run, the last
error is the one raised, and each attempt but the last logs a warning. -/
theorem retryRun_allFail (errs : Nat → String) (label : String) (verbose : Bool) :
    ∀ (rem i : Nat) (logs : List LogEntry),
      retryRun (fun j => .error (errs j)) (fun _ => true) label verbose rem i logs =
        ⟨.error (errs (i + rem)),
          logs ++ (List.range rem).map (fun j => mkRetryLog label verbose (errs (i + j))),
          i + rem + 1⟩ := by
  intro rem
  induction rem with
  | zero =>
    intro i logs
    rw [retryRun.eq_def]
    simp
  | succ rem' ih =>
    intro i logs
    rw [retryRun.eq_def]
    simp only [if_true]
    rw [ih (i + 1) (logs ++ [mkRetryLog label verbose (errs i)])]
    have hmaps : (List.range (rem' + 1)).map
          (fun j => mkRetryLog label verbose (errs (i + j))) =
        mkRetryLog label verbose (errs i) ::
          (List.range rem').map (fun j => mkRetryLog label verbose (errs (i + 1 + j))) := by
      rw [List.range_succ_eq_map, List.map_cons, List.map_map]
      refine congrArg₂ _ (by simp) ?_
      refine List.map_congr_left ?_
      intro j _
      simp only [Function.comp_apply, Nat.succ_eq_add_one]
      rw [show i + (j + 1) = i + 1 + j by omega]
    rw [hmaps]
    rw [show i + (rem' + 1) = i + 1 + rem' by omega]
    simp [List.append_assoc]

/-! ### Lemmas on the registry -/

/-- Appending entities to a stored collection only ever extends it on the
right: the previously stored prefix survives every registration. -/
theorem dedupAppend_extends :
    ∀ (es cur : List EntityClassOrSchema), ∃ t, dedupAppend cur es = cur ++ t := by
  intro es
  induction es with
  | nil => intro cur; exact ⟨[], by simp [dedupAppend]⟩
  | cons e es ih =>
    intro cur
    by_cases he : e ∈ cur
    · obtain ⟨t, ht⟩ := ih cur
      exact ⟨t, by simpa [dedupAppend, he] using ht⟩
    · obtain ⟨t, ht⟩ := ih (cur ++ [e])
      refine ⟨e :: t, ?_⟩
      have : dedupAppend cur (e :: es) = dedupAppend (cur ++ [e]) es := by
        simp [dedupAppend, he]
      rw [this, ht, List.append_assoc]
      rfl

/-- Registration at one key leaves every other key's collection unchanged. -/
theorem addEntities_other_key (s : Storage) (ident : DataSourceIdent)
    (es : List EntityClassOrSchema) (k : String) (hk : k ≠ resolveKey ident) :
    EntitiesMetadataStorage.addEntitiesByDataSource s ident es k = s k := by
  simp [EntitiesMetadataStorage.addEntitiesByDataSource,
    EntitiesMetadataStorage.getEntitiesByDataSource, hk]

/-- Registration at a key replaces its collection by the dedup-append of the
new entities. -/
theorem addEntities_same_key (s : Storage) (ident : DataSourceIdent)
    (es : List EntityClassOrSchema) :
    EntitiesMetadataStorage.addEntitiesByDataSource s ident es (resolveKey ident) =
      dedupAppend (s (resolveKey ident)) es := by
  simp [EntitiesMetadataStorage.addEntitiesByDataSource]

/-- A sequence of registrations under one identifier folds the dedup-append
over the registered lists. -/
theorem foldl_addEntities (ident : DataSourceIdent) :
    ∀ (regs : List (List EntityClassOrSchema)) (s : Storage),
      (regs.foldl (fun s es =>
          EntitiesMetadataStorage.addEntitiesByDataSource s ident es) s)
          (resolveKey ident) =
        regs.foldl dedupAppend (s (resolveKey ident)) := by
  intro regs
  induction regs with
  | nil => intro s; rfl
  | cons es regs ih =>
    intro s
    simp only [List.foldl_cons]
    rw [ih, addEntities_same_key]

/-- Folding dedup-append over a list of lists is dedup-append of their
concatenation. -/
theorem foldl_dedupAppend_flatten :
    ∀ (regs : List (List EntityClassOrSchema)) (init : List EntityClassOrSchema),
      regs.foldl dedupAppend init = dedupAppend init regs.flatten := by
  intro regs
  induction regs with
  | nil => intro init; rfl
  | cons es regs ih =>
    intro init
    simp only [List.foldl_cons, List.flatten_cons]
    rw [ih]
    simp [dedupAppend, List.foldl_append]

/-! ### Bridge from the bootstrap to the retry protocol -/

/-- When the keep-alive reuse does not apply, `createDataSourceFactory` is the
retry protocol run over the factory: same outcome, same logs, and one factory
invocation per attempt made. -/
theorem createDataSourceFactory_nonreuse (opts : TypeOrmModuleOptions)
    (mgr : ConnectionManager) (storage : Storage)
    (factory : Nat → Except String DataSource)
    (h : reuseAvailable opts mgr = none) :
    (createDataSourceFactory opts mgr storage factory).outcome =
      (handleRetry opts.retryAttempts opts.retryDelay (getDataSourceName opts)
        opts.verboseRetryLog opts.toRetry factory).outcome ∧
    (createDataSourceFactory opts mgr storage factory).logs =
      (handleRetry opts.retryAttempts opts.retryDelay (getDataSourceName opts)
        opts.verboseRetryLog opts.toRetry factory).logs ∧
    (createDataSourceFactory opts mgr storage factory).factoryCalls.length =
      (handleRetry opts.retryAttempts opts.retryDelay (getDataSourceName opts)
        opts.verboseRetryLog opts.toRetry factory).attemptsMade := by
  unfold createDataSourceFactory deferBody
  rw [h]
  by_cases ht : opts.type = none
  · simp [ht]
  · by_cases hal : opts.autoLoadEntities <;> simp [ht, hal]

/-- The keep-alive reuse never applies when `keepDataSourceAlive` is unset. -/
theorem reuseAvailable_of_not_keepAlive (opts : TypeOrmModuleOptions)
    (mgr : ConnectionManager) (hK : opts.keepDataSourceAlive = false) :
    reuseAvailable opts mgr = none := by
  simp [reuseAvailable, hK]

/-! ### Claim theorems -/

/-- Claim C1: for every `attempts = N > 0`, running the connection bootstrap
with a connection factory that fails `N - 1` times and then succeeds returns
the successful connection, and exactly `N - 1` retry warnings are logged, one
per failed attempt. -/
theorem claim1_retry_fail_then_succeed (N : Nat) (hN : 1 ≤ N)
    (opts : TypeOrmModuleOptions) (mgr : ConnectionManager) (storage : Storage)
    (ds : DataSource) (errs : Nat → String)
    (hA : opts.retryAttempts = some (N : Int)) (hP : opts.toRetry = none)
    (hK : opts.keepDataSourceAlive = false) :
    (createDataSourceFactory opts mgr storage
        (fun i => if i < N - 1 then .error (errs i) else .ok ds)).outcome = .ok ds ∧
    (createDataSourceFactory opts mgr storage
        (fun i => if i < N - 1 then .error (errs i) else .ok ds)).logs =
      (List.range (N - 1)).map
        (fun j => mkRetryLog (getDataSourceName opts) opts.verboseRetryLog (errs j)) := by
  obtain ⟨ho, hl, -⟩ := createDataSourceFactory_nonreuse opts mgr storage
    (fun i => if i < N - 1 then .error (errs i) else .ok ds)
    (reuseAvailable_of_not_keepAlive opts mgr hK)
  rw [ho, hl]
  unfold handleRetry
  rw [hA, hP]
  have hcast : (((some (N : Int)).getD 10) - 1).toNat = N - 1 := by
    simp only [Option.getD_some]
    omega
  rw [hcast]
  have hpred : effPred none = fun _ => true := rfl
  rw [hpred]
  have hrun := retryRun_failThenOk errs ds (getDataSourceName opts)
    opts.verboseRetryLog (N - 1) (N - 1) 0 [] (le_refl _)
  simp only [Nat.zero_add] at hrun
  rw [hrun]
  simp

/-- Witness for C1 at `N = 3`: two failures then success yields the successful
connection with two retry warnings. -/
theorem claim1_witness :
    (createDataSourceFactory { retryAttempts := some 3 } ⟨[]⟩ emptyStorage
        (fun i => if i < 3 - 1 then .error (toString i) else .ok ⟨5, true⟩)).outcome =
      .ok ⟨5, true⟩ ∧
    (createDataSourceFactory { retryAttempts := some 3 } ⟨[]⟩ emptyStorage
        (fun i => if i < 3 - 1 then .error (toString i) else .ok ⟨5, true⟩)).logs.length = 2 := by
  have h := claim1_retry_fail_then_succeed 3 (by decide)
    { retryAttempts := some 3 } ⟨[]⟩ emptyStorage ⟨5, true⟩ (fun i => toString i)
    rfl rfl rfl
  exact ⟨h.1, by rw [h.2]; rfl⟩

/-- Counterexample to claim C2 as stated: with `attempts = 0` and a factory
that always fails, the bootstrap raises after one invocation of the factory,
not after `N = 0` total invocations. -/
theorem claim2_counterexample :
    (createDataSourceFactory { retryAttempts := some 0 } ⟨[]⟩ emptyStorage
        (fun _ => .error "connection refused")).factoryCalls.length = 1 ∧
    (createDataSourceFactory { retryAttempts := some 0 } ⟨[]⟩ emptyStorage
        (fun _ => .error "connection refused")).outcome = .error "connection refused" ∧
    (1 : Nat) ≠ 0 := by
  exact ⟨rfl, rfl, by decide⟩

/-- Claim C2 as amended: for every `attempts = N ≥ 1`, a connection factory
that always fails makes the bootstrap raise after exactly `N` total
invocations of the factory, and the error raised is the last error produced by
the factory, unchanged. -/
theorem claim2_amended_exhausted_attempts (N : Nat) (hN : 1 ≤ N)
    (opts : TypeOrmModuleOptions) (mgr : ConnectionManager) (storage : Storage)
    (errs : Nat → String)
    (hA : opts.retryAttempts = some (N : Int)) (hP : opts.toRetry = none)
    (hK : opts.keepDataSourceAlive = false) :
    (createDataSourceFactory opts mgr storage (fun i => .error (errs i))).outcome =
      .error (errs (N - 1)) ∧
    (createDataSourceFactory opts mgr storage (fun i => .error (errs i))).factoryCalls.length =
      N := by
  obtain ⟨ho, -, hc⟩ := createDataSourceFactory_nonreuse opts mgr storage
    (fun i => .error (errs i)) (reuseAvailable_of_not_keepAlive opts mgr hK)
  rw [ho, hc]
  unfold handleRetry
  rw [hA, hP]
  have hcast : (((some (N : Int)).getD 10) - 1).toNat = N - 1 := by
    simp only [Option.getD_some]
    omega
  rw [hcast]
  have hpred : effPred none = fun _ => true := rfl
  rw [hpred]
  rw [retryRun_allFail errs (getDataSourceName opts) opts.verboseRetryLog (N - 1) 0 []]
  constructor
  · simp
  · simp
    omega

/-- Witness for the amended C2 at `N = 2`: an always-failing factory is
invoked twice and the second error is raised unchanged. -/
theorem claim2_witness :
    (createDataSourceFactory { retryAttempts := some 2 } ⟨[]⟩ emptyStorage
        (fun i => .error (toString i))).outcome = .error (toString 1) ∧
    (createDataSourceFactory { retryAttempts := some 2 } ⟨[]⟩ emptyStorage
        (fun i => .error (toString i))).factoryCalls.length = 2 := by
  have h := claim2_amended_exhausted_attempts 2 (by decide)
    { retryAttempts := some 2 } ⟨[]⟩ emptyStorage (fun i => toString i)
    rfl rfl rfl
  exact h

/-- Counterexample to claim C3 as stated: with `attempts = 1` and the default
always-retry predicate, the first failure is fatal — it propagates immediately
with one factory invocation and zero retry log lines — although the configured
attempts value is positive and the predicate did not reject the error. -/
theorem claim3_counterexample :
    createDataSourceFactory { retryAttempts := some 1 } ⟨[]⟩ emptyStorage
        (fun _ => .error "boom") =
      ⟨.error "boom", [], [none]⟩ ∧
    ¬((1 : Int) ≤ 0) := by
  exact ⟨rfl, by decide⟩

/-- Claim C3 as amended: with `attempts = A` configured, the first failed
connection attempt is fatal — the error propagates with exactly one factory
invocation and no retry log line — exactly when `A ≤ 1` (so `0`, negative, or
`1`: no retry remains) or the retry predicate returns false for that error; in
the predicate case this holds regardless of how many attempts remain, and in
every fatal case the first error propagates unchanged. -/
theorem claim3_amended_first_failure_fatal (A : Int)
    (opts : TypeOrmModuleOptions) (mgr : ConnectionManager) (storage : Storage)
    (factory : Nat → Except String DataSource) (e₀ : String)
    (hA : opts.retryAttempts = some A) (hK : opts.keepDataSourceAlive = false)
    (h0 : factory 0 = .error e₀) :
    (((createDataSourceFactory opts mgr storage factory).factoryCalls.length = 1 ∧
      (createDataSourceFactory opts mgr storage factory).logs = []) ↔
        (A ≤ 1 ∨ effPred opts.toRetry e₀ = false)) ∧
    ((A ≤ 1 ∨ effPred opts.toRetry e₀ = false) →
      (createDataSourceFactory opts mgr storage factory).outcome = .error e₀) := by
  obtain ⟨ho, hl, hc⟩ := createDataSourceFactory_nonreuse opts mgr storage factory
    (reuseAvailable_of_not_keepAlive opts mgr hK)
  rw [ho, hl, hc]
  unfold handleRetry
  rw [hA]
  simp only [Option.getD_some]
  by_cases hp : effPred opts.toRetry e₀ = true
  · by_cases hA1 : A ≤ 1
    · have hrem : (A - 1).toNat = 0 := by omega
      rw [hrem, retryRun_step, h0]
      simp [hp, hA1]
    · have hrem : ∃ r, (A - 1).toNat = r + 1 := ⟨(A - 2).toNat, by omega⟩
      obtain ⟨r, hr⟩ := hrem
      rw [hr, retryRun_step, h0]
      simp only [hp, if_true, Nat.zero_add, List.nil_append]
      have hge := retryRun_attempts_ge factory (effPred opts.toRetry)
        (getDataSourceName opts) opts.verboseRetryLog r 1
        [mkRetryLog (getDataSourceName opts) opts.verboseRetryLog e₀]
      constructor
      · constructor
        · rintro ⟨hlen, -⟩
          exact absurd hlen (by omega)
        · rintro (h | h)
          · exact absurd h hA1
          · exact absurd h (by decide)
      · rintro (h | h)
        · exact absurd h hA1
        · exact absurd h (by decide)
  · have hp' : effPred opts.toRetry e₀ = false := by
      revert hp
      cases effPred opts.toRetry e₀ <;> simp
    rw [retryRun_step, h0]
    simp [hp']

/-- Witness for the amended C3: with `attempts = 0` the first failure is
immediately fatal with no log line, and the error propagates unchanged. -/
theorem claim3_witness :
    (((createDataSourceFactory { retryAttempts := some 0 } ⟨[]⟩ emptyStorage
        (fun _ => .error "refused")).factoryCalls.length = 1 ∧
      (createDataSourceFactory { retryAttempts := some 0 } ⟨[]⟩ emptyStorage
        (fun _ => .error "refused")).logs = []) ↔
        ((0 : Int) ≤ 1 ∨ effPred none "refused" = false)) ∧
    (((0 : Int) ≤ 1 ∨ effPred none "refused" = false) →
      (createDataSourceFactory { retryAttempts := some 0 } ⟨[]⟩ emptyStorage
        (fun _ => .error "refused")).outcome = .error "refused") := by
  exact claim3_amended_first_failure_fatal 0
    { retryAttempts := some 0 } ⟨[]⟩ emptyStorage (fun _ => .error "refused")
    "refused" rfl rfl rfl

/-- The keep-alive reuse applies exactly when the flag is set and the manager
holds an initialized data source under the resolved name. -/
theorem reuseAvailable_some_iff (opts : TypeOrmModuleOptions)
    (mgr : ConnectionManager) (ds : DataSource) :
    reuseAvailable opts mgr = some ds ↔
      opts.keepDataSourceAlive = true ∧
        mgrFind mgr (getDataSourceName opts) = some ds ∧
        ds.isInitialized = true := by
  unfold reuseAvailable
  constructor
  · intro h
    by_cases hk : opts.keepDataSourceAlive
    · rcases hm : mgrFind mgr (getDataSourceName opts) with _ | d
      · simp [hk, hm] at h
      · by_cases hi : d.isInitialized
        · simp [hk, hm, hi] at h
          subst h
          exact ⟨hk, rfl, hi⟩
        · simp [hk, hm, hi] at h
    · simp [hk] at h
  · rintro ⟨hk, hm, hi⟩
    simp [hk, hm, hi]

/-- When the keep-alive reuse applies, `createDataSourceFactory` returns the
reused data source with no logs and no factory invocation. -/
theorem createDataSourceFactory_reuse (opts : TypeOrmModuleOptions)
    (mgr : ConnectionManager) (storage : Storage)
    (factory : Nat → Except String DataSource) (ds : DataSource)
    (h : reuseAvailable opts mgr = some ds) :
    createDataSourceFactory opts mgr storage factory = ⟨.ok ds, [], []⟩ := by
  unfold createDataSourceFactory deferBody
  rw [h]

/-- The retry protocol always runs the operation at least once. -/
theorem handleRetry_attempts_pos (retryAttempts : Option Int) (retryDelay : Option Nat)
    (label : String) (verbose : Bool) (toRetry : Option (String → Bool))
    (op : Nat → Except String DataSource) :
    1 ≤ (handleRetry retryAttempts retryDelay label verbose toRetry op).attemptsMade := by
  unfold handleRetry
  exact retryRun_attempts_ge op (effPred toRetry) label verbose _ 0 []

/-- Claim C4: if the keep-alive flag is set and the process-wide connection
manager already holds an initialized connection under the resolved logical
name, then bootstrapping returns that same connection instance and the
connection factory is never invoked; and this is the only case in which the
factory is not invoked. -/
theorem claim4_keepalive_reuse (opts : TypeOrmModuleOptions)
    (mgr : ConnectionManager) (storage : Storage)
    (factory : Nat → Except String DataSource) :
    (∀ ds : DataSource, opts.keepDataSourceAlive = true →
      mgrFind mgr (getDataSourceName opts) = some ds → ds.isInitialized = true →
      createDataSourceFactory opts mgr storage factory = ⟨.ok ds, [], []⟩) ∧
    ((createDataSourceFactory opts mgr storage factory).factoryCalls = [] →
      opts.keepDataSourceAlive = true ∧
        ∃ ds : DataSource, mgrFind mgr (getDataSourceName opts) = some ds ∧
          ds.isInitialized = true ∧
          (createDataSourceFactory opts mgr storage factory).outcome = .ok ds) := by
  constructor
  · intro ds hk hm hi
    exact createDataSourceFactory_reuse opts mgr storage factory ds
      ((reuseAvailable_some_iff opts mgr ds).mpr ⟨hk, hm, hi⟩)
  · intro hempty
    rcases hru : reuseAvailable opts mgr with _ | ds
    · obtain ⟨-, -, hc⟩ := createDataSourceFactory_nonreuse opts mgr storage factory hru
      rw [hempty] at hc
      have hpos := handleRetry_attempts_pos opts.retryAttempts opts.retryDelay
        (getDataSourceName opts) opts.verboseRetryLog opts.toRetry factory
      simp at hc
      omega
    · obtain ⟨hk, hm, hi⟩ := (reuseAvailable_some_iff opts mgr ds).mp hru
      refine ⟨hk, ds, hm, hi, ?_⟩
      rw [createDataSourceFactory_reuse opts mgr storage factory ds hru]

/-- Witness for C4: with keep-alive set and an initialized connection stored
under the default name, bootstrapping returns that instance with no factory
invocation. -/
theorem claim4_witness :
    createDataSourceFactory { keepDataSourceAlive := true }
        ⟨[("default", ⟨7, true⟩)]⟩ emptyStorage (fun _ => .error "unused") =
      ⟨.ok ⟨7, true⟩, [], []⟩ := by
  exact (claim4_keepalive_reuse { keepDataSourceAlive := true }
    ⟨[("default", ⟨7, true⟩)]⟩ emptyStorage (fun _ => .error "unused")).1
    ⟨7, true⟩ rfl (by simp [mgrFind, getDataSourceName, DEFAULT_DATA_SOURCE_NAME]) rfl

/-- Claim C5: when auto-load is enabled and a driver type is configured (and
the keep-alive reuse does not apply), the entity list passed to the connection
factory is the explicitly configured entities — a keyed-map form normalized to
an ordered list — followed by the registry's accumulated entities for the
resolved logical name; when no entities are configured it is exactly the
registry's accumulated list alone. -/
theorem claim5_autoload_entities (opts : TypeOrmModuleOptions)
    (mgr : ConnectionManager) (storage : Storage) (t : String)
    (hT : opts.type = some t) (hAL : opts.autoLoadEntities = true)
    (hNR : reuseAvailable opts mgr = none) :
    deferBody opts mgr storage = .create (some (.arr (autoLoadedEntities opts storage))) ∧
    (∀ cfg, opts.entities = some cfg →
      autoLoadedEntities opts storage =
        normalizeEntities cfg ++
          EntitiesMetadataStorage.getEntitiesByDataSource storage (getDataSourceName opts)) ∧
    (opts.entities = none →
      autoLoadedEntities opts storage =
        EntitiesMetadataStorage.getEntitiesByDataSource storage (getDataSourceName opts)) ∧
    (∀ factory c, c ∈ (createDataSourceFactory opts mgr storage factory).factoryCalls →
      c = some (some (.arr (autoLoadedEntities opts storage)))) := by
  have hdefer : deferBody opts mgr storage =
      .create (some (.arr (autoLoadedEntities opts storage))) := by
    unfold deferBody
    rw [hNR]
    simp [hT, hAL]
  refine ⟨hdefer, ?_, ?_, ?_⟩
  · intro cfg hcfg
    unfold autoLoadedEntities
    rw [hcfg]
  · intro hcfg
    unfold autoLoadedEntities
    rw [hcfg]
  · intro factory c hc
    unfold createDataSourceFactory at hc
    rw [hdefer] at hc
    simp only at hc
    exact List.eq_of_mem_replicate hc

/-- Witness for C5: with one configured entity (in keyed-map form) and two
registry entities, the resolved list is the configured entity followed by the
registry's two. -/
theorem claim5_witness :
    autoLoadedEntities
        { autoLoadEntities := true, type := some "postgres",
          entities := some (.keyed [("X", .plain 0)]) }
        (EntitiesMetadataStorage.addEntitiesByDataSource emptyStorage
          (.str "default") [.plain 1, .plain 2]) =
      [.plain 0, .plain 1, .plain 2] := by
  have h := (claim5_autoload_entities
    { autoLoadEntities := true, type := some "postgres",
      entities := some (.keyed [("X", .plain 0)]) }
    ⟨[]⟩
    (EntitiesMetadataStorage.addEntitiesByDataSource emptyStorage
      (.str "default") [.plain 1, .plain 2])
    "postgres" rfl rfl rfl).2.1 (.keyed [("X", .plain 0)]) rfl
  rw [h]
  rfl

/-- Claim C6: for every sequence of register calls under the same connection
key, the registry's stored collection is the concatenation of all registered
entity lists in registration order with duplicates removed by identity; no
registration ever overwrites earlier entries (each call only extends the
stored collection on the right); and registering `[a, b]` then `[c]` under one
name followed by a lookup yields `[a, b, c]` in that order. -/
theorem claim6_registry_accumulates (key : String)
    (regs : List (List EntityClassOrSchema)) :
    EntitiesMetadataStorage.getEntitiesByDataSource
        (regs.foldl (fun s es =>
          EntitiesMetadataStorage.addEntitiesByDataSource s (.str key) es)
          emptyStorage) key =
      dedupAppend [] regs.flatten ∧
    (∀ (s : Storage) (ident : DataSourceIdent) (es : List EntityClassOrSchema),
      ∃ t, EntitiesMetadataStorage.addEntitiesByDataSource s ident es (resolveKey ident) =
        s (resolveKey ident) ++ t) ∧
    (∀ a b c : EntityClassOrSchema, a ≠ b → a ≠ c → b ≠ c →
      EntitiesMetadataStorage.getEntitiesByDataSource
        (EntitiesMetadataStorage.addEntitiesByDataSource
          (EntitiesMetadataStorage.addEntitiesByDataSource emptyStorage (.str key)
            [a, b])
          (.str key) [c]) key = [a, b, c]) := by
  refine ⟨?_, ?_, ?_⟩
  · exact (foldl_addEntities (.str key) regs emptyStorage).trans
      (foldl_dedupAppend_flatten regs [])
  · intro s ident es
    obtain ⟨t, ht⟩ := dedupAppend_extends es (s (resolveKey ident))
    exact ⟨t, (addEntities_same_key s ident es).trans ht⟩
  · intro a b c hab hac hbc
    have hba : ¬b = a := fun h => hab h.symm
    have hca : ¬c = a := fun h => hac h.symm
    have hcb : ¬c = b := fun h => hbc h.symm
    show EntitiesMetadataStorage.addEntitiesByDataSource
      (EntitiesMetadataStorage.addEntitiesByDataSource emptyStorage (.str key) [a, b])
      (.str key) [c] (resolveKey (.str key)) = [a, b, c]
    rw [addEntities_same_key, addEntities_same_key]
    simp [dedupAppend, emptyStorage, hba, hca, hcb]

/-- Witness for C6: registering `[plain 0, plain 1]` then `[plain 2]` under
`"default"` and looking the name up yields the three entities in order. -/
theorem claim6_witness :
    EntitiesMetadataStorage.getEntitiesByDataSource
      (EntitiesMetadataStorage.addEntitiesByDataSource
        (EntitiesMetadataStorage.addEntitiesByDataSource emptyStorage (.str "default")
          [.plain 0, .plain 1])
        (.str "default") [.plain 2]) "default" = [.plain 0, .plain 1, .plain 2] := by
  exact (claim6_registry_accumulates "default" []).2.2 (.plain 0) (.plain 1) (.plain 2)
    (by decide) (by decide) (by decide)

/-- A sequence of registrations that never resolves to `key` leaves the
collection stored under `key` untouched. -/
theorem foldl_addEntities_other (key : String) :
    ∀ (regs : List (DataSourceIdent × List EntityClassOrSchema)) (s : Storage),
      (∀ r ∈ regs, resolveKey r.1 ≠ key) →
      (regs.foldl (fun s r =>
        EntitiesMetadataStorage.addEntitiesByDataSource s r.1 r.2) s) key = s key := by
  intro regs
  induction regs with
  | nil => intro s _; rfl
  | cons r regs ih =>
    intro s h
    simp only [List.foldl_cons]
    rw [ih _ (fun r' hr' => h r' (List.mem_cons_of_mem r hr'))]
    exact addEntities_other_key s r.1 r.2 key
      (fun hk => h r (List.mem_cons_self r regs) hk.symm)

/-- Claim C7: for every connection key that has never been registered — no
registration in the sequence resolves to it — the registry lookup returns the
empty collection; the lookup is a total function and never raises. -/
theorem claim7_unknown_key_empty (key : String)
    (regs : List (DataSourceIdent × List EntityClassOrSchema))
    (h : ∀ r ∈ regs, resolveKey r.1 ≠ key) :
    EntitiesMetadataStorage.getEntitiesByDataSource
      (regs.foldl (fun s r =>
        EntitiesMetadataStorage.addEntitiesByDataSource s r.1 r.2) emptyStorage)
      key = [] := by
  exact foldl_addEntities_other key regs emptyStorage h

/-- Witness for C7: after a registration under `"default"`, a lookup for the
never-registered key `"other"` returns the empty collection. -/
theorem claim7_witness :
    EntitiesMetadataStorage.getEntitiesByDataSource
      ([((DataSourceIdent.str "default"), [EntityClassOrSchema.plain 0])].foldl
        (fun s r =>
          EntitiesMetadataStorage.addEntitiesByDataSource s r.1 r.2) emptyStorage)
      "other" = [] := by
  exact claim7_unknown_key_empty "other"
    [((DataSourceIdent.str "default"), [EntityClassOrSchema.plain 0])]
    (by decide)

/-- Claim C8: on application shutdown, the connection close is invoked exactly
when the keep-alive flag is not set (given a resolved data source), it is
invoked at most once (never retried), an error raised by the close is only
logged — the hook's result is total, so shutdown always completes — and the
keep-alive early return logs nothing. -/
theorem claim8_shutdown_close (keepAlive : Bool) (dsOpt : Option DataSource)
    (d : DataSource) (closeOutcome : Except String Unit) (hds : dsOpt = some d) :
    ((onApplicationShutdown keepAlive dsOpt closeOutcome).closeCalls =
      if keepAlive then 0 else 1) ∧
    (onApplicationShutdown keepAlive dsOpt closeOutcome).closeCalls ≤ 1 ∧
    (∀ e, closeOutcome = .error e → keepAlive = false →
      (onApplicationShutdown keepAlive dsOpt closeOutcome).loggedErrors = [e]) ∧
    (keepAlive = true →
      (onApplicationShutdown keepAlive dsOpt closeOutcome).loggedErrors = []) := by
  subst hds
  unfold onApplicationShutdown
  cases keepAlive <;> rcases closeOutcome with e | u <;> simp

/-- Witness for C8: with keep-alive unset, a failing close is invoked once and
its error is logged, not propagated. -/
theorem claim8_witness :
    (onApplicationShutdown false (some ⟨1, true⟩) (.error "close failed")).closeCalls = 1 ∧
    (onApplicationShutdown false (some ⟨1, true⟩)
      (.error "close failed")).loggedErrors = ["close failed"] := by
  have h := claim8_shutdown_close false (some ⟨1, true⟩) ⟨1, true⟩
    (.error "close failed") rfl
  exact ⟨by simpa using h.1, h.2.2.1 "close failed" rfl rfl⟩

/-- Counterexample to claim C9 as stated: a custom-repository descriptor (a
class extending `Repository`) on a `mongodb` connection is resolved through
the relational lookup, not the document-style lookup, so the lookup path does
not depend only on the driver family. -/
theorem claim9_counterexample :
    repositoryFor (.customRepo 0 1) "mongodb" = .relational (.customRepo 0 1) ∧
    repositoryFor (.customRepo 0 1) "mongodb" ≠ .mongo (.customRepo 0 1) ∧
    createTypeOrmProviders (some [.customRepo 0 1]) =
      [(.customRepo 0 1, repositoryFor (.customRepo 0 1))] := by
  exact ⟨rfl, by decide, rfl⟩

/-- Claim C9 as amended: each repository provider resolves through
`repositoryFor`; a descriptor that is a `Repository` subclass always uses the
relational lookup, and for every other descriptor the document-style lookup is
used exactly when the driver type is `mongodb`, the relational lookup
otherwise. -/
theorem claim9_amended_repository_lookup (e : EntityClassOrSchema) (dt : String) :
    (isRepositorySubclass e = true → repositoryFor e dt = .relational e) ∧
    (isRepositorySubclass e = false →
      ((repositoryFor e dt = .mongo e ↔ dt = "mongodb") ∧
        (dt ≠ "mongodb" → repositoryFor e dt = .relational e))) ∧
    (∀ es, createTypeOrmProviders (some es) = es.map (fun x => (x, repositoryFor x))) ∧
    createTypeOrmProviders none = [] := by
  refine ⟨?_, ?_, fun es => rfl, rfl⟩
  · intro h
    unfold repositoryFor
    rw [h]
    simp
  · intro h
    unfold repositoryFor
    rw [h]
    constructor
    · by_cases hdt : dt = "mongodb"
      · simp [hdt]
      · simp [hdt]
    · intro hdt
      simp [hdt]

/-- Witness for the amended C9: a plain entity on a `mongodb` connection is
resolved through the document-style lookup. -/
theorem claim9_witness :
    repositoryFor (.plain 0) "mongodb" = .mongo (.plain 0) := by
  exact ((claim9_amended_repository_lookup (.plain 0) "mongodb").2.1 rfl).1.mpr rfl

/-- Claim C10: a feature registration appends to the entity registry the
caller's entity descriptors followed by the entity classes derived from
custom-repository classes among them (modulo identity de-duplication), so the
registered list can be strictly longer than the caller's list. -/
theorem claim10_feature_registration (es : List EntityClassOrSchema) (key : String) :
    EntitiesMetadataStorage.getEntitiesByDataSource
        (forFeature es (.str key) emptyStorage) key =
      dedupAppend [] (es ++ getCustomRepositoryEntity es) ∧
    (EntitiesMetadataStorage.getEntitiesByDataSource
        (forFeature [.customRepo 0 1] (.str "default") emptyStorage) "default").length >
      ([EntityClassOrSchema.customRepo 0 1]).length := by
  constructor
  · show EntitiesMetadataStorage.addEntitiesByDataSource emptyStorage (.str key)
      (es ++ getCustomRepositoryEntity es) (resolveKey (.str key)) =
      dedupAppend [] (es ++ getCustomRepositoryEntity es)
    rw [addEntities_same_key]
    rfl
  · decide

end NestTypeOrm
